import Mathlib

/-!
Verification development for the WY MovieBox client-side catalog browser.

The definitions below are a shallow embedding of the application's state
model and command handlers (main script: id generation, favorites,
playback selection, trending, settings persistence).  JavaScript objects
with string keys are modelled as association lists in insertion order
(matching for-in iteration order over string keys), arrays as lists, and
`localStorage` as an association list from keys to serialized strings.
-/

/-- A movie entry.  In the source JSON a raw entry carries `title`,
`thumb` and `src`; the `id` field is (re)assigned at load time by
`generateVideoIds`, so a raw entry's `id` is arbitrary (undefined in JS,
here an arbitrary string). -/
structure Movie where
  title : String
  thumb : String
  src : String
  id : String
deriving DecidableEq

/-- The catalog: a mapping from category name to the category's ordered
sequence of movies, in key insertion order. -/
abbrev Catalog := List (String × List Movie)

/-- From `generateVideoIds` (main script): for every category, each movie
at position `index` gets `id = category ++ "-" ++ toString index`
(the JS template literal `${category}-${index}`). -/
def generateVideoIds (videos : Catalog) : Catalog :=
  videos.map (fun cm =>
    (cm.1, cm.2.enum.map (fun im => { im.2 with id := cm.1 ++ "-" ++ toString im.1 })))

/-- From `findMovieById`: scan categories in order, return the first
movie whose `id` matches, else none. -/
def findMovieById (videos : Catalog) (id : String) : Option Movie :=
  match videos with
  | [] => none
  | cm :: rest =>
    match cm.2.find? (fun m => m.id == id) with
    | some movie => some movie
    | none => findMovieById rest id

/-- All ids occurring in the catalog, in category-then-index order. -/
def catalogIds (videos : Catalog) : List String :=
  (videos.map (fun cm => cm.2.map Movie.id)).flatten

/-! ### Decimal representation facts

`generateVideoIds` builds ids with `toString index`, which is
`Nat.repr`.  To prove ids unique we show that `Nat.repr` is injective
and that its output never contains the separator character. -/

/-- Reference form of the decimal digit list produced by `Nat.repr`. -/
def digitsList (n : Nat) : List Char :=
  if h : n < 10 then [Nat.digitChar n]
  else digitsList (n / 10) ++ [Nat.digitChar (n % 10)]
decreasing_by
  exact Nat.div_lt_self (by omega) (by omega)

theorem toDigitsCore_eq_digitsList (fuel : Nat) :
    ∀ (n : Nat) (ds : List Char), 0 < fuel → n < 10 ^ fuel →
      Nat.toDigitsCore 10 fuel n ds = digitsList n ++ ds := by
  induction fuel with
  | zero => intro n ds h _; omega
  | succ f ih =>
    intro n ds _ hlt
    by_cases h10 : n / 10 = 0
    · have hn : n < 10 := by omega
      rw [Nat.toDigitsCore]
      simp only [h10, if_true]
      rw [digitsList]
      simp only [hn, dif_pos]
      rw [Nat.mod_eq_of_lt hn]
      rfl
    · have hge : 10 ≤ n := by
        by_contra hc
        exact h10 (Nat.div_eq_of_lt (by omega))
      have hfpos : 0 < f := by
        rcases Nat.eq_zero_or_pos f with hf | hf
        · subst hf
          simp only [pow_succ, pow_zero, one_mul] at hlt
          omega
        · exact hf
      have hdiv : n / 10 < 10 ^ f := by
        rw [Nat.div_lt_iff_lt_mul (by omega)]
        calc n < 10 ^ (f + 1) := hlt
          _ = 10 ^ f * 10 := by rw [pow_succ]
      rw [Nat.toDigitsCore]
      simp only [h10, if_false]
      rw [ih (n / 10) _ hfpos hdiv]
      conv_rhs => rw [digitsList]
      simp only [show ¬ n < 10 by omega, dif_neg, not_false_iff]
      rw [List.append_assoc]
      rfl

theorem repr_data_eq_digitsList (n : Nat) : (Nat.repr n).data = digitsList n := by
  show (Nat.toDigits 10 n).asString.data = digitsList n
  rw [Nat.toDigits, toDigitsCore_eq_digitsList (n + 1) n [] (by omega)]
  · simp [List.asString]
  · calc n < 10 ^ n := Nat.lt_pow_self (by omega) n
      _ ≤ 10 ^ (n + 1) := Nat.pow_le_pow_right (by omega) (by omega)

theorem digitChar_ne_dash (m : Nat) : Nat.digitChar m ≠ '-' := by
  rcases Nat.lt_or_ge m 16 with h | h
  · interval_cases m <;> decide
  · unfold Nat.digitChar
    repeat rw [if_neg (by omega)]
    decide

theorem dash_not_mem_digitsList (n : Nat) : '-' ∉ digitsList n := by
  induction n using Nat.strong_induction_on with
  | _ n ih =>
    rw [digitsList]
    split
    · simp only [List.mem_singleton]
      exact fun h => digitChar_ne_dash n h.symm
    · intro hmem
      rcases List.mem_append.mp hmem with h | h
      · exact ih (n / 10) (Nat.div_lt_self (by omega) (by omega)) h
      · simp only [List.mem_singleton] at h
        exact digitChar_ne_dash (n % 10) h.symm

/-- Value of a decimal digit character. -/
def digitVal (c : Char) : Nat := c.toNat - '0'.toNat

theorem digitVal_digitChar (m : Nat) (h : m < 10) :
    digitVal (Nat.digitChar m) = m := by
  interval_cases m <;> decide

theorem natFromDigits_digitsList (n : Nat) :
    (digitsList n).foldl (fun a c => a * 10 + digitVal c) 0 = n := by
  induction n using Nat.strong_induction_on with
  | _ n ih =>
    rw [digitsList]
    split
    · rename_i h
      simp [List.foldl, digitVal_digitChar n h]
    · rename_i h
      rw [List.foldl_append]
      rw [ih (n / 10) (Nat.div_lt_self (by omega) (by omega))]
      simp [List.foldl, digitVal_digitChar (n % 10) (Nat.mod_lt n (by omega))]
      omega

theorem digitsList_injective {m n : Nat} (h : digitsList m = digitsList n) : m = n := by
  have hm := natFromDigits_digitsList m
  have hn := natFromDigits_digitsList n
  rw [h] at hm
  omega

theorem repr_injective {m n : Nat} (h : Nat.repr m = Nat.repr n) : m = n := by
  apply digitsList_injective
  rw [← repr_data_eq_digitsList, ← repr_data_eq_digitsList, h]

/-! ### Separator splitting

An id has the form `cat ++ "-" ++ toString i` where the decimal part
contains no dash, so the split at the last dash is unique. -/

theorem append_sep_inj {α : Type} (c : α) :
    ∀ (l1 l2 t1 t2 : List α), c ∉ t1 → c ∉ t2 →
      l1 ++ c :: t1 = l2 ++ c :: t2 → l1 = l2 ∧ t1 = t2 := by
  intro l1
  induction l1 with
  | nil =>
    intro l2 t1 t2 h1 h2 heq
    cases l2 with
    | nil =>
      simp only [List.nil_append, List.cons.injEq] at heq
      exact ⟨rfl, heq.2⟩
    | cons x l2 =>
      simp only [List.nil_append, List.cons_append, List.cons.injEq] at heq
      exfalso
      apply h1
      rw [heq.2]
      exact List.mem_append_right l2 (List.mem_cons_self c t2)
  | cons x l1 ih =>
    intro l2 t1 t2 h1 h2 heq
    cases l2 with
    | nil =>
      simp only [List.cons_append, List.nil_append, List.cons.injEq] at heq
      exfalso
      apply h2
      rw [← heq.2]
      exact List.mem_append_right l1 (List.mem_cons_self c t1)
    | cons y l2 =>
      simp only [List.cons_append, List.cons.injEq] at heq
      obtain ⟨h3, h4⟩ := ih l2 t1 t2 h1 h2 heq.2
      exact ⟨by rw [heq.1, h3], h4⟩

theorem string_data_append (a b : String) : (a ++ b).data = a.data ++ b.data := rfl

theorem string_eq_of_data {a b : String} (h : a.data = b.data) : a = b := by
  cases a
  cases b
  exact congrArg String.mk h

theorem idString_data (cat : String) (i : Nat) :
    (cat ++ "-" ++ toString i).data = cat.data ++ ('-' :: digitsList i) := by
  rw [string_data_append, string_data_append]
  have hrepr : (toString i).data = digitsList i := repr_data_eq_digitsList i
  rw [hrepr, List.append_assoc]
  rfl

theorem idString_inj {c1 c2 : String} {i j : Nat}
    (h : c1 ++ "-" ++ toString i = c2 ++ "-" ++ toString j) : c1 = c2 ∧ i = j := by
  have hd : c1.data ++ ('-' :: digitsList i) = c2.data ++ ('-' :: digitsList j) := by
    rw [← idString_data, ← idString_data, h]
  obtain ⟨h1, h2⟩ := append_sep_inj '-' c1.data c2.data (digitsList i) (digitsList j)
    (dash_not_mem_digitsList i) (dash_not_mem_digitsList j) hd
  exact ⟨string_eq_of_data h1, digitsList_injective h2⟩

/-! ### Ids produced by `generateVideoIds` -/

theorem enum_map_fst (l : List Movie) : l.enum.map Prod.fst = List.range l.length := by
  rw [List.enum_eq_enumFrom, List.enumFrom_map_fst, List.range_eq_range']

theorem gen_cat_ids (cat : String) (ms : List Movie) :
    (ms.enum.map (fun im => ({ im.2 with id := cat ++ "-" ++ toString im.1 } : Movie))).map Movie.id
      = (List.range ms.length).map (fun i => cat ++ "-" ++ toString i) := by
  rw [List.map_map, ← enum_map_fst ms, List.map_map]
  rfl

theorem gen_cat_ids_nodup (cat : String) (n : Nat) :
    ((List.range n).map (fun i => cat ++ "-" ++ toString i)).Nodup := by
  apply List.Nodup.map _ (List.nodup_range n)
  intro i j hij
  exact (idString_inj hij).2

theorem gen_cat_ids_disjoint {c1 c2 : String} (hne : c1 ≠ c2) (n1 n2 : Nat) :
    List.Disjoint ((List.range n1).map (fun i => c1 ++ "-" ++ toString i))
      ((List.range n2).map (fun i => c2 ++ "-" ++ toString i)) := by
  intro a ha hb
  obtain ⟨i, _, hi⟩ := List.mem_map.mp ha
  obtain ⟨j, _, hj⟩ := List.mem_map.mp hb
  exact hne (idString_inj (hi.trans hj.symm)).1

theorem catalogIds_gen (videos : Catalog) :
    catalogIds (generateVideoIds videos)
      = (videos.map (fun cm =>
          (List.range cm.2.length).map (fun i => cm.1 ++ "-" ++ toString i))).flatten := by
  unfold catalogIds generateVideoIds
  rw [List.map_map]
  congr 1
  apply List.map_congr_left
  intro cm _
  exact gen_cat_ids cm.1 cm.2

theorem catalogIds_gen_nodup (videos : Catalog) (hk : (videos.map Prod.fst).Nodup) :
    (catalogIds (generateVideoIds videos)).Nodup := by
  rw [catalogIds_gen, List.nodup_flatten]
  constructor
  · intro l hl
    obtain ⟨cm, _, hcm⟩ := List.mem_map.mp hl
    rw [← hcm]
    exact gen_cat_ids_nodup cm.1 cm.2.length
  · have hp : videos.Pairwise (fun a b => a.1 ≠ b.1) := List.pairwise_map.mp hk
    refine List.Pairwise.map _ ?_ hp
    intro a b hne
    exact gen_cat_ids_disjoint hne a.2.length b.2.length

theorem gen_positions (videos : Catalog) :
    ∀ cat ms, (cat, ms) ∈ generateVideoIds videos →
      ∀ i, (h : i < ms.length) → (ms.get ⟨i, h⟩).id = cat ++ "-" ++ toString i := by
  intro cat ms hmem i h
  unfold generateVideoIds at hmem
  obtain ⟨cm, _, hcm⟩ := List.mem_map.mp hmem
  have hcat : cm.1 = cat := congrArg Prod.fst hcm
  have hms : (cm.2.enum.map
      (fun im => ({ im.2 with id := cm.1 ++ "-" ++ toString im.1 } : Movie))) = ms :=
    congrArg Prod.snd hcm
  obtain ⟨m, h9, hgm⟩ : ∃ m, ms[i]? = some m ∧ ms.get ⟨i, h⟩ = m := by
    refine ⟨ms.get ⟨i, h⟩, ?_, rfl⟩
    rw [List.get_eq_getElem]
    exact List.getElem?_eq_getElem h
  rw [hgm]
  rw [← hms, List.getElem?_map, List.enum_eq_enumFrom, List.getElem?_enumFrom] at h9
  cases h2 : cm.2[i]? with
  | none =>
    rw [h2] at h9
    simp at h9
  | some a =>
    rw [h2] at h9
    simp only [Option.map_some'] at h9
    have h3 := Option.some.inj h9
    rw [← h3]
    simp [hcat]

/-! ### Application state model

State mirrors the script's module-level variables (`videos`, `favorites`,
`currentPlayingMovie`, `currentSettings`) plus the active bottom-nav tab
(kept in the DOM by the script) and `localStorage`. -/

/-- User settings: the four fields read and written by the settings form. -/
structure Settings where
  language : String
  theme : String
  name : String
  email : String
deriving DecidableEq

/-- From `defaultSettings` in the source. -/
def defaultSettings : Settings :=
  { language := "myanmar", theme := "dark", name := "", email := "" }

/-- The four bottom-nav tabs (`data-nav` values). -/
inductive Nav where
  | home
  | trending
  | favorites
  | profile
deriving DecidableEq

/-- User-visible notices raised by command handlers (the script shows them
with `showCustomAlert` or, for the no-selection favorite toggle, a shake
animation on the button). -/
inductive Notice where
  | noMovieSelected
  | movieNotFound
  | addedFavorite (title : String)
  | removedFavorite (title : String)
  | settingsSaved
  | settingsSaveError
deriving DecidableEq

/-- Durable key-value storage (`localStorage`): keys to string payloads. -/
abbrev Store := List (String × String)

/-- `localStorage.setItem`: replace the value under `k`, or append the
binding when the key is absent. -/
def setStore (s : Store) (k v : String) : Store :=
  match s with
  | [] => [(k, v)]
  | kv :: rest => if kv.1 = k then (k, v) :: rest else kv :: setStore rest k v

/-- `localStorage.getItem`: the value under `k`, if present. -/
def getStore (s : Store) (k : String) : Option String :=
  match s with
  | [] => none
  | kv :: rest => if kv.1 = k then some kv.2 else getStore rest k

/-- Models `JSON.stringify` on the favorites array of id strings (the
payload written under key `favorites`).  Claims treat the payload as
opaque. -/
def stringifyFavorites (l : List String) : String :=
  "[" ++ String.intercalate "," (l.map (fun s => "\"" ++ s ++ "\"")) ++ "]"

/-- Models `JSON.stringify` on the settings object (the payload written
under key `userSettings`).  Claims treat the payload as opaque. -/
def stringifySettings (s : Settings) : String :=
  "\x7b\"name\":\"" ++ s.name ++ "\",\"email\":\"" ++ s.email ++
    "\",\"theme\":\"" ++ s.theme ++ "\",\"language\":\"" ++ s.language ++ "\"\x7d"

/-- The whole in-memory application state. -/
structure AppState where
  videos : Catalog
  favorites : List String
  currentPlayingMovie : Option Movie
  currentSettings : Settings
  currentNav : Nav
  storage : Store
deriving DecidableEq

/-! ### Loading state from storage (`initializeApp`)

`JSON.parse` is a platform builtin; it is abstracted as a function
returning either a parse error (malformed JSON, the `catch` branch) or a
parsed value.  For the favorites payload the code only distinguishes
arrays (kept) from every other value (replaced by `[]` via the
`Array.isArray` check), so the parsed-value model carries exactly that
distinction. -/

/-- Outcome of `JSON.parse` on a favorites payload: a JSON sequence
(with its elements, the stored id strings), or any non-sequence value. -/
inductive JsonVal where
  | arr (elems : List String)
  | nonArr
deriving DecidableEq

/-- From `initializeApp`, favorites branch: missing key or parse failure
or non-array parse result give `[]`; an array is taken as-is. -/
def loadFavorites (parse : String → Except Unit JsonVal) (stored : Option String) :
    List String :=
  match stored with
  | none => []
  | some s =>
    match parse s with
    | Except.error _ => []
    | Except.ok (JsonVal.arr elems) => elems
    | Except.ok JsonVal.nonArr => []

/-- Outcome of `JSON.parse` on a settings payload: the subset of setting
fields present in the stored object. -/
structure SettingsPatch where
  language : Option String
  theme : Option String
  name : Option String
  email : Option String

/-- The JS spread `\x7b ...defaultSettings, ...parsed \x7d`. -/
def mergeSettings (base : Settings) (p : SettingsPatch) : Settings :=
  { language := p.language.getD base.language
    theme := p.theme.getD base.theme
    name := p.name.getD base.name
    email := p.email.getD base.email }

/-- From `initializeApp`, settings branch. -/
def loadSettings (parse : String → Except Unit SettingsPatch) (stored : Option String) :
    Settings :=
  match stored with
  | none => defaultSettings
  | some s =>
    match parse s with
    | Except.error _ => defaultSettings
    | Except.ok p => mergeSettings defaultSettings p

/-- The successive steps of `initializeApp` (main script), in statement
order. -/
inductive InitStep where
  | loadData
  | updateUserId
  | assignIds
  | loadSettings
  | loadFavorites
  | applySettings
  | renderHome
deriving DecidableEq

/-- Statement order of `initializeApp`: awaits the JSON load, updates the
user id, generates ids, loads settings and favorites, applies settings
(re-rendering the active view) and navigates to home. -/
def initializeAppSteps : List InitStep :=
  [InitStep.loadData, InitStep.updateUserId, InitStep.assignIds,
   InitStep.loadSettings, InitStep.loadFavorites,
   InitStep.applySettings, InitStep.renderHome]

/-- State produced by `initializeApp` after a successful data load:
`raw` is `data.videos`, the stored payloads are the `localStorage`
contents under `userSettings` and `favorites`. -/
def initializeApp (parseSettings : String → Except Unit SettingsPatch)
    (parseFavorites : String → Except Unit JsonVal)
    (raw : Catalog) (storedSettings storedFavorites : Option String)
    (storage : Store) : AppState :=
  { videos := generateVideoIds raw
    favorites := loadFavorites parseFavorites storedFavorites
    currentPlayingMovie := none
    currentSettings := loadSettings parseSettings storedSettings
    currentNav := Nav.home
    storage := storage }

/-! ### Favorites toggling

Two variants exist in the repository.  The main script's handler uses
`indexOf`/`splice` (remove the first occurrence) and the alternative
script's uses `includes`/`filter` (remove all occurrences) while also
computing the new membership boolean `!isFavorite` that it hands to the
favorited-indicator update. -/

/-- Pure core of `toggleFavorite` (script.js variant): returns the new
favorites array together with the new membership boolean `!isFavorite`
that the handler passes on to `updateFavoriteButtonState`. -/
def toggleFavoriteList (movieId : String) (favorites : List String) :
    List String × Bool :=
  let isFavorite := favorites.contains movieId
  if !isFavorite then
    (favorites ++ [movieId], !isFavorite)
  else
    (favorites.filter (fun id => id != movieId), !isFavorite)

/-- Pure core of `toggleFavorite` (main script variant):
`indexOf` + `splice(index, 1)` removes the first occurrence, else push. -/
def toggleFavoriteUpdate (movieId : String) (favorites : List String) :
    List String :=
  if favorites.contains movieId then favorites.erase movieId
  else favorites ++ [movieId]

/-- From `window.toggleFavorite` (main script): without a playing movie,
show the notice and change nothing; otherwise toggle the playing movie's
id in the favorites array and persist it under key `favorites`. -/
def toggleFavoriteCommand (st : AppState) : AppState × List Notice :=
  match st.currentPlayingMovie with
  | none => (st, [Notice.noMovieSelected])
  | some movie =>
    let movieId := movie.id
    let result :=
      if st.favorites.contains movieId then
        (st.favorites.erase movieId, Notice.removedFavorite movie.title)
      else
        (st.favorites ++ [movieId], Notice.addedFavorite movie.title)
    ({ st with
        favorites := result.1
        storage := setStore st.storage "favorites" (stringifyFavorites result.1) },
      [result.2])

/-- From `window.playVideo`: look the id up; when found set
`currentPlayingMovie` (and the player/title, view-only); when not found
show the not-found alert and touch nothing. -/
def playVideo (st : AppState) (movieId : String) : AppState × List Notice :=
  match findMovieById st.videos movieId with
  | some movie => ({ st with currentPlayingMovie := some movie }, [])
  | none => (st, [Notice.movieNotFound])

/-- From `displayTrending`: concatenate all categories in key order via
repeated `concat`, then `slice(-10)` (the last `min 10 length` entries);
the movies rendered as cards, in order. -/
def displayTrending (videos : Catalog) : List Movie :=
  let allMovies := videos.foldl (fun acc cm => acc ++ cm.2) []
  allMovies.drop (allMovies.length - 10)

/-- Trending selection as the specification words it: the concatenation
of all categories' sequences in mapping order, truncated to its last 10
entries (all of them when there are 10 or fewer). -/
def trendingSpec (videos : Catalog) : List Movie :=
  let all := (videos.map Prod.snd).flatten
  if all.length ≤ 10 then all else all.drop (all.length - 10)

/-- From `displayFavorites`: for each stored favorite id in order, look
the movie up and append a card when found (missing ids are skipped);
reads state only. -/
def displayFavoritesCommand (st : AppState) : AppState × List Movie :=
  (st,
    st.favorites.foldl
      (fun acc movieId =>
        match findMovieById st.videos movieId with
        | some movie => acc ++ [movie]
        | none => acc)
      [])

/-- From `window.saveSettings`: try to write the submitted form values
under `userSettings`; on success merge them into `currentSettings`,
re-apply settings and navigate home; when the write throws
(`writeFails`), the catch branch only shows an error alert. -/
def saveSettings (writeFails : Bool) (form : Settings) (st : AppState) :
    AppState × List Notice :=
  if writeFails then
    (st, [Notice.settingsSaveError])
  else
    ({ st with
        storage := setStore st.storage "userSettings" (stringifySettings form)
        currentSettings :=
          { st.currentSettings with
              language := form.language
              theme := form.theme
              name := form.name
              email := form.email }
        currentNav := Nav.home },
      [Notice.settingsSaved])

/-- The catalog of the specification's scenario:
`\x7baction:[\x7btitle:"A"\x7d,\x7btitle:"B"\x7d], drama:[\x7btitle:"C"\x7d]\x7d`
(raw entries, before id assignment). -/
def exampleCatalog : Catalog :=
  [("action",
    [{ title := "A", thumb := "", src := "", id := "" },
     { title := "B", thumb := "", src := "", id := "" }]),
   ("drama",
    [{ title := "C", thumb := "", src := "", id := "" }])]

/-! ### Helper lemmas about the handlers -/

theorem findMovieById_eq_none (videos : Catalog) (movieId : String)
    (habs : ∀ cm ∈ videos, ∀ m ∈ cm.2, m.id ≠ movieId) :
    findMovieById videos movieId = none := by
  induction videos with
  | nil => rfl
  | cons cm rest ih =>
    unfold findMovieById
    have hfind : cm.2.find? (fun m => m.id == movieId) = none := by
      rw [List.find?_eq_none]
      intro m hm
      simpa using habs cm (List.mem_cons_self cm rest) m hm
    rw [hfind]
    exact ih (fun cm2 h2 => habs cm2 (List.mem_cons_of_mem cm h2))

theorem foldl_concat_eq_flatten (l : Catalog) :
    ∀ acc : List Movie,
      l.foldl (fun acc cm => acc ++ cm.2) acc = acc ++ (l.map Prod.snd).flatten := by
  induction l with
  | nil => intro acc; simp
  | cons cm rest ih =>
    intro acc
    simp only [List.foldl_cons, List.map_cons, List.flatten_cons]
    rw [ih (acc ++ cm.2), List.append_assoc]

theorem foldl_lookup_eq_filterMap (videos : Catalog) (l : List String) :
    ∀ acc : List Movie,
      l.foldl
        (fun acc movieId =>
          match findMovieById videos movieId with
          | some movie => acc ++ [movie]
          | none => acc)
        acc
      = acc ++ l.filterMap (fun movieId => findMovieById videos movieId) := by
  induction l with
  | nil => intro acc; simp
  | cons movieId rest ih =>
    intro acc
    simp only [List.foldl_cons, List.filterMap_cons]
    cases h : findMovieById videos movieId with
    | none => simp only [h]; exact ih acc
    | some movie =>
      simp only [h]
      rw [ih (acc ++ [movie]), List.append_assoc]
      rfl

theorem getStore_setStore_same (s : Store) (k v : String) :
    getStore (setStore s k v) k = some v := by
  induction s with
  | nil => simp [setStore, getStore]
  | cons kv rest ih =>
    unfold setStore
    by_cases h : kv.1 = k
    · simp [h, getStore]
    · simp only [h, if_false]
      unfold getStore
      simp [h, ih]

theorem filter_ne_eq_erase_of_count_le_one (l : List String) (a : String)
    (h : l.count a ≤ 1) : l.filter (fun x => x != a) = l.erase a := by
  induction l with
  | nil => rfl
  | cons hd tl ih =>
    by_cases hhd : hd = a
    · subst hhd
      have hcount : tl.count hd = 0 := by
        rw [List.count_cons_self] at h
        omega
      have hnotin : hd ∉ tl := by
        intro hin
        have := List.count_pos_iff_mem.mpr hin
        omega
      rw [List.erase_cons_head]
      simp only [List.filter_cons, bne_self_eq_false, Bool.false_eq_true, if_false]
      rw [List.filter_eq_self]
      intro x hx
      simp only [bne_iff_ne, ne_eq]
      intro hxa
      exact hnotin (hxa ▸ hx)
    · have hcount : tl.count a ≤ 1 := by
        rw [List.count_cons_of_ne (Ne.symm hhd)] at h
        exact h
      rw [List.erase_cons_tail]
      · simp only [List.filter_cons]
        have : (hd != a) = true := bne_iff_ne.mpr hhd
        rw [this]
        simp only [if_true]
        rw [ih hcount]
      · simpa using hhd

/-! ### Claim theorems -/

/-- C1: after `generateVideoIds` runs on a loaded catalog (whose category
keys are distinct, as JS object keys are), every movie's id equals
`"<category>-<index>"` for its zero-based position in its category, and
no two movies anywhere in the catalog share an id. -/
theorem assignIds_positional_and_unique (videos : Catalog)
    (hkeys : (videos.map Prod.fst).Nodup) :
    (∀ cat ms, (cat, ms) ∈ generateVideoIds videos →
      ∀ i, (h : i < ms.length) → (ms.get ⟨i, h⟩).id = cat ++ "-" ++ toString i)
    ∧ (catalogIds (generateVideoIds videos)).Nodup :=
  ⟨gen_positions videos, catalogIds_gen_nodup videos hkeys⟩

/-- Witness for C1 at the specification's example catalog. -/
theorem assignIds_positional_and_unique_witness :
    (exampleCatalog.map Prod.fst).Nodup
    ∧ ((∀ cat ms, (cat, ms) ∈ generateVideoIds exampleCatalog →
        ∀ i, (h : i < ms.length) → (ms.get ⟨i, h⟩).id = cat ++ "-" ++ toString i)
      ∧ (catalogIds (generateVideoIds exampleCatalog)).Nodup) :=
  ⟨by decide, assignIds_positional_and_unique exampleCatalog (by decide)⟩

/-- C3: `playVideo` on an id that occurs nowhere in the catalog reports
the not-found notice and returns the state unchanged; in particular a
previously selected `currentPlayingMovie` is kept, not nulled out. -/
theorem playVideo_missing_id_keeps_state (st : AppState) (movieId : String)
    (habs : ∀ cm ∈ st.videos, ∀ m ∈ cm.2, m.id ≠ movieId) :
    playVideo st movieId = (st, [Notice.movieNotFound])
    ∧ (playVideo st movieId).1.currentPlayingMovie = st.currentPlayingMovie := by
  have hnone : findMovieById st.videos movieId = none :=
    findMovieById_eq_none st.videos movieId habs
  have hmain : playVideo st movieId = (st, [Notice.movieNotFound]) := by
    unfold playVideo
    rw [hnone]
  exact ⟨hmain, by rw [hmain]⟩

/-- A sample state with a previously selected playing movie, used to
instantiate hypothesised theorems. -/
def samplePlayingState : AppState :=
  { videos := generateVideoIds exampleCatalog
    favorites := []
    currentPlayingMovie := some { title := "A", thumb := "", src := "", id := "action-0" }
    currentSettings := defaultSettings
    currentNav := Nav.home
    storage := [] }

/-- Witness for C3: `playVideo "missing-99"` against the example catalog
with a previously selected movie. -/
theorem playVideo_missing_id_keeps_state_witness :
    (∀ cm ∈ samplePlayingState.videos, ∀ m ∈ cm.2, m.id ≠ "missing-99")
    ∧ (playVideo samplePlayingState "missing-99"
        = (samplePlayingState, [Notice.movieNotFound])
      ∧ (playVideo samplePlayingState "missing-99").1.currentPlayingMovie
          = samplePlayingState.currentPlayingMovie) :=
  ⟨by decide, playVideo_missing_id_keeps_state samplePlayingState "missing-99" (by decide)⟩

/-- C5: the trending selection is the concatenation of all categories in
mapping order truncated to its last 10 entries (all of them when there
are at most 10), and on the example catalog it yields exactly
`action-0, action-1, drama-0` in that order. -/
theorem displayTrending_spec_and_example :
    (∀ videos : Catalog, displayTrending videos = trendingSpec videos)
    ∧ (displayTrending (generateVideoIds exampleCatalog)).map Movie.id
        = ["action-0", "action-1", "drama-0"] := by
  constructor
  · intro videos
    simp only [displayTrending, trendingSpec]
    rw [foldl_concat_eq_flatten videos []]
    simp only [List.nil_append]
    by_cases h : ((videos.map Prod.snd).flatten).length ≤ 10
    · rw [if_pos h, Nat.sub_eq_zero_of_le h, List.drop_zero]
    · rw [if_neg h]
  · decide

/-- C10: rendering the favorites view lists exactly the favorite ids
that resolve in the catalog, in stored order, skipping unresolvable ids,
and leaves the whole application state (favorites and storage included)
unchanged. -/
theorem displayFavorites_filterMap (st : AppState) :
    displayFavoritesCommand st
      = (st, st.favorites.filterMap (fun movieId => findMovieById st.videos movieId)) := by
  unfold displayFavoritesCommand
  rw [foldl_lookup_eq_filterMap st.videos st.favorites []]
  rw [List.nil_append]

theorem toggleFavoriteList_of_mem {movieId : String} {favs : List String}
    (h : movieId ∈ favs) :
    toggleFavoriteList movieId favs = (favs.filter (fun id => id != movieId), false) := by
  unfold toggleFavoriteList
  simp [h]

theorem toggleFavoriteList_of_not_mem {movieId : String} {favs : List String}
    (h : movieId ∉ favs) :
    toggleFavoriteList movieId favs = (favs ++ [movieId], true) := by
  unfold toggleFavoriteList
  simp [h]

theorem toggleFavoriteUpdate_of_mem {movieId : String} {favs : List String}
    (h : movieId ∈ favs) :
    toggleFavoriteUpdate movieId favs = favs.erase movieId := by
  unfold toggleFavoriteUpdate
  simp [h]

theorem toggleFavoriteUpdate_of_not_mem {movieId : String} {favs : List String}
    (h : movieId ∉ favs) :
    toggleFavoriteUpdate movieId favs = favs ++ [movieId] := by
  unfold toggleFavoriteUpdate
  simp [h]

theorem filter_ne_eq_self {movieId : String} {favs : List String}
    (h : movieId ∉ favs) : favs.filter (fun id => id != movieId) = favs := by
  rw [List.filter_eq_self]
  intro x hx
  simp only [bne_iff_ne, ne_eq]
  intro hxe
  exact h (hxe ▸ hx)

theorem erase_append_singleton_perm {movieId : String} {favs : List String}
    (h : movieId ∈ favs) : List.Perm (favs.erase movieId ++ [movieId]) favs :=
  (List.perm_append_singleton movieId (favs.erase movieId)).trans
    (List.perm_cons_erase h).symm

theorem not_mem_erase_of_count_le_one {movieId : String} {favs : List String}
    (hmem : movieId ∈ favs) (hdup : favs.count movieId ≤ 1) :
    movieId ∉ favs.erase movieId := by
  intro hin
  have h1 : 0 < (favs.erase movieId).count movieId := List.count_pos_iff.mpr hin
  rw [List.count_erase_self] at h1
  have h2 : 0 < favs.count movieId := List.count_pos_iff.mpr hmem
  omega

/-- C2: with no duplicate of the toggled id in the favorites list,
toggling the same id twice flips its membership and flips it back, and
returns the favorites list to its original contents (both for the
`includes`/`filter` variant and for the `indexOf`/`splice` variant). -/
theorem toggleFavorite_twice_roundtrip (favs : List String) (movieId : String)
    (hdup : favs.count movieId ≤ 1) :
    (movieId ∈ (toggleFavoriteList movieId favs).1 ↔ movieId ∉ favs)
    ∧ List.Perm (toggleFavoriteList movieId (toggleFavoriteList movieId favs).1).1 favs
    ∧ (∀ x, x ∈ (toggleFavoriteList movieId (toggleFavoriteList movieId favs).1).1
        ↔ x ∈ favs)
    ∧ (movieId ∈ toggleFavoriteUpdate movieId favs ↔ movieId ∉ favs)
    ∧ List.Perm (toggleFavoriteUpdate movieId (toggleFavoriteUpdate movieId favs)) favs
    ∧ (∀ x, x ∈ toggleFavoriteUpdate movieId (toggleFavoriteUpdate movieId favs)
        ↔ x ∈ favs) := by
  by_cases h : movieId ∈ favs
  · -- the id is present: first call removes it, second appends it back
    have ht1 := toggleFavoriteList_of_mem h
    have hfe := filter_ne_eq_erase_of_count_le_one favs movieId hdup
    have hnot1 : movieId ∉ (toggleFavoriteList movieId favs).1 := by
      rw [ht1, hfe]
      exact not_mem_erase_of_count_le_one h hdup
    have ht2 := toggleFavoriteList_of_not_mem hnot1
    have hperm : List.Perm (toggleFavoriteList movieId (toggleFavoriteList movieId favs).1).1 favs := by
      rw [ht2]
      simp only [ht1]
      rw [hfe]
      exact erase_append_singleton_perm h
    have hu1 := toggleFavoriteUpdate_of_mem h
    have hunot1 : movieId ∉ toggleFavoriteUpdate movieId favs := by
      rw [hu1]
      exact not_mem_erase_of_count_le_one h hdup
    have hu2 := toggleFavoriteUpdate_of_not_mem hunot1
    have huperm : List.Perm (toggleFavoriteUpdate movieId (toggleFavoriteUpdate movieId favs)) favs := by
      rw [hu2, hu1]
      exact erase_append_singleton_perm h
    refine ⟨iff_of_false hnot1 (by simpa using h), hperm,
      fun x => hperm.mem_iff, iff_of_false hunot1 (by simpa using h), huperm,
      fun x => huperm.mem_iff⟩
  · -- the id is absent: first call appends it, second removes it again
    have ht1 := toggleFavoriteList_of_not_mem h
    have hmem1 : movieId ∈ (toggleFavoriteList movieId favs).1 := by
      rw [ht1]
      exact List.mem_append_right favs (List.mem_singleton_self movieId)
    have ht2 := toggleFavoriteList_of_mem hmem1
    have ht2eq : (toggleFavoriteList movieId (toggleFavoriteList movieId favs).1).1 = favs := by
      rw [ht2]
      simp only [ht1]
      rw [List.filter_append, filter_ne_eq_self h]
      simp
    have hu1 := toggleFavoriteUpdate_of_not_mem h
    have humem1 : movieId ∈ toggleFavoriteUpdate movieId favs := by
      rw [hu1]
      exact List.mem_append_right favs (List.mem_singleton_self movieId)
    have hu2 := toggleFavoriteUpdate_of_mem humem1
    have hu2eq : toggleFavoriteUpdate movieId (toggleFavoriteUpdate movieId favs) = favs := by
      rw [hu2, hu1, List.erase_append_right _ h]
      simp
    refine ⟨iff_of_true hmem1 h, by rw [ht2eq], fun x => by rw [ht2eq],
      iff_of_true humem1 h, by rw [hu2eq], fun x => by rw [hu2eq]⟩

/-- Witness for C2 with the id in the middle of a duplicate-free list. -/
theorem toggleFavorite_twice_roundtrip_witness :
    (["a", "x", "b"] : List String).count "x" ≤ 1
    ∧ (("x" ∈ (toggleFavoriteList "x" ["a", "x", "b"]).1 ↔ "x" ∉ (["a", "x", "b"] : List String))
      ∧ List.Perm (toggleFavoriteList "x" (toggleFavoriteList "x" ["a", "x", "b"]).1).1 ["a", "x", "b"]
      ∧ (∀ x, x ∈ (toggleFavoriteList "x" (toggleFavoriteList "x" ["a", "x", "b"]).1).1
          ↔ x ∈ (["a", "x", "b"] : List String))
      ∧ ("x" ∈ toggleFavoriteUpdate "x" ["a", "x", "b"] ↔ "x" ∉ (["a", "x", "b"] : List String))
      ∧ List.Perm (toggleFavoriteUpdate "x" (toggleFavoriteUpdate "x" ["a", "x", "b"])) ["a", "x", "b"]
      ∧ (∀ x, x ∈ toggleFavoriteUpdate "x" (toggleFavoriteUpdate "x" ["a", "x", "b"])
          ↔ x ∈ (["a", "x", "b"] : List String))) :=
  ⟨by decide, toggleFavorite_twice_roundtrip ["a", "x", "b"] "x" (by decide)⟩

/-- C7: `toggleFavorite` removes a present id (dropping every occurrence
in the `filter` variant), appends an absent one, hands the new
membership boolean to the indicator update (`true` after adding,
`false` after removing), and the command persists the new list under the
`favorites` storage key. -/
theorem toggleFavorite_membership_and_persist (movieId : String) (favs : List String) :
    (movieId ∈ favs →
      (toggleFavoriteList movieId favs).1 = favs.filter (fun id => id != movieId)
      ∧ movieId ∉ (toggleFavoriteList movieId favs).1
      ∧ (toggleFavoriteList movieId favs).2 = false)
    ∧ (movieId ∉ favs →
      (toggleFavoriteList movieId favs).1 = favs ++ [movieId]
      ∧ movieId ∈ (toggleFavoriteList movieId favs).1
      ∧ (toggleFavoriteList movieId favs).2 = true)
    ∧ ((toggleFavoriteList movieId favs).2 = true
        ↔ movieId ∈ (toggleFavoriteList movieId favs).1)
    ∧ (∀ st movie, st.currentPlayingMovie = some movie →
        getStore (toggleFavoriteCommand st).1.storage "favorites"
          = some (stringifyFavorites (toggleFavoriteCommand st).1.favorites)) := by
  refine ⟨?_, ?_, ?_, ?_⟩
  · intro h
    have ht := toggleFavoriteList_of_mem h
    refine ⟨by rw [ht], ?_, by rw [ht]⟩
    rw [ht]
    simp
  · intro h
    have ht := toggleFavoriteList_of_not_mem h
    refine ⟨by rw [ht], ?_, by rw [ht]⟩
    rw [ht]
    exact List.mem_append_right favs (List.mem_singleton_self movieId)
  · by_cases h : movieId ∈ favs
    · have ht := toggleFavoriteList_of_mem h
      rw [ht]
      simp
    · have ht := toggleFavoriteList_of_not_mem h
      rw [ht]
      simp
  · intro st movie hm
    unfold toggleFavoriteCommand
    rw [hm]
    exact getStore_setStore_same st.storage "favorites" _

/-- Witness for C7: toggling a present id, and the persistence fact on a
state with a playing movie. -/
theorem toggleFavorite_membership_and_persist_witness :
    ("x" ∈ (["a", "x", "b"] : List String)
      ∧ ((toggleFavoriteList "x" ["a", "x", "b"]).1
            = (["a", "x", "b"] : List String).filter (fun id => id != "x")
        ∧ "x" ∉ (toggleFavoriteList "x" ["a", "x", "b"]).1
        ∧ (toggleFavoriteList "x" ["a", "x", "b"]).2 = false))
    ∧ (samplePlayingState.currentPlayingMovie
          = some { title := "A", thumb := "", src := "", id := "action-0" }
      ∧ getStore (toggleFavoriteCommand samplePlayingState).1.storage "favorites"
          = some (stringifyFavorites (toggleFavoriteCommand samplePlayingState).1.favorites)) :=
  ⟨⟨by decide, (toggleFavorite_membership_and_persist "x" ["a", "x", "b"]).1 (by decide)⟩,
   ⟨rfl, (toggleFavorite_membership_and_persist "action-0" []).2.2.2
      samplePlayingState { title := "A", thumb := "", src := "", id := "action-0" } rfl⟩⟩

/-- C9: the favorite-toggle command with no movie playing raises only the
no-selection notice and changes nothing: favorites, storage and the rest
of the state are returned exactly as they were. -/
theorem toggleFavorite_no_selection_noop (st : AppState)
    (h : st.currentPlayingMovie = none) :
    toggleFavoriteCommand st = (st, [Notice.noMovieSelected])
    ∧ (toggleFavoriteCommand st).1.favorites = st.favorites
    ∧ (toggleFavoriteCommand st).1.storage = st.storage := by
  have hmain : toggleFavoriteCommand st = (st, [Notice.noMovieSelected]) := by
    unfold toggleFavoriteCommand
    rw [h]
  exact ⟨hmain, by rw [hmain], by rw [hmain]⟩

/-- A sample state in which no movie was ever played. -/
def sampleIdleState : AppState :=
  { videos := generateVideoIds exampleCatalog
    favorites := []
    currentPlayingMovie := none
    currentSettings := defaultSettings
    currentNav := Nav.home
    storage := [] }

/-- Witness for C9 on a state with no movie ever played and empty
favorites. -/
theorem toggleFavorite_no_selection_noop_witness :
    sampleIdleState.currentPlayingMovie = none
    ∧ (toggleFavoriteCommand sampleIdleState = (sampleIdleState, [Notice.noMovieSelected])
      ∧ (toggleFavoriteCommand sampleIdleState).1.favorites = sampleIdleState.favorites
      ∧ (toggleFavoriteCommand sampleIdleState).1.storage = sampleIdleState.storage) :=
  ⟨rfl, toggleFavorite_no_selection_noop sampleIdleState rfl⟩

/-- C6: loading favorites yields `[]` for a missing key, for malformed
JSON (the catch branch) and for a parsed value that is not a sequence
(the `Array.isArray` check); a non-empty result can only come from a
stored JSON array.  `loadFavorites` is a total function: the parse
failure is caught, never propagated. -/
theorem loadFavorites_defensive (parse : String → Except Unit JsonVal) :
    loadFavorites parse none = []
    ∧ (∀ s, parse s = Except.error () → loadFavorites parse (some s) = [])
    ∧ (∀ s, parse s = Except.ok JsonVal.nonArr → loadFavorites parse (some s) = [])
    ∧ (∀ s elems, parse s = Except.ok (JsonVal.arr elems) →
        loadFavorites parse (some s) = elems)
    ∧ (∀ stored, loadFavorites parse stored ≠ [] →
        ∃ s elems, stored = some s ∧ parse s = Except.ok (JsonVal.arr elems)
          ∧ loadFavorites parse stored = elems) := by
  refine ⟨rfl, ?_, ?_, ?_, ?_⟩
  · intro s hp
    simp only [loadFavorites, hp]
  · intro s hp
    simp only [loadFavorites, hp]
  · intro s elems hp
    simp only [loadFavorites, hp]
  · intro stored hne
    match stored with
    | none => exact absurd rfl hne
    | some s =>
      simp only [loadFavorites] at hne ⊢
      match hp : parse s with
      | Except.error () => rw [hp] at hne; exact absurd rfl hne
      | Except.ok JsonVal.nonArr => rw [hp] at hne; exact absurd rfl hne
      | Except.ok (JsonVal.arr elems) =>
        exact ⟨s, elems, rfl, hp, rfl⟩

/-- A concrete stand-in for `JSON.parse` on favorites payloads. -/
def parseFavoritesStub : String → Except Unit JsonVal := fun s =>
  if s = "[\"a\"]" then Except.ok (JsonVal.arr ["a"])
  else if s = "3" then Except.ok JsonVal.nonArr
  else Except.error ()

/-- Witness for C6: missing key, malformed payload, non-array payload
and array payload, each at a concrete input. -/
theorem loadFavorites_defensive_witness :
    loadFavorites parseFavoritesStub none = []
    ∧ loadFavorites parseFavoritesStub (some "oops") = []
    ∧ loadFavorites parseFavoritesStub (some "3") = []
    ∧ loadFavorites parseFavoritesStub (some "[\"a\"]") = ["a"] :=
  ⟨(loadFavorites_defensive parseFavoritesStub).1,
   (loadFavorites_defensive parseFavoritesStub).2.1 "oops" rfl,
   (loadFavorites_defensive parseFavoritesStub).2.2.1 "3" rfl,
   (loadFavorites_defensive parseFavoritesStub).2.2.2.1 "[\"a\"]" ["a"] rfl⟩

/-- C8: when the durable write throws, `saveSettings` leaves the whole
state (in-memory settings and the active nav included) untouched and
only reports the error; when it succeeds, the in-memory settings take
the submitted form values, the payload is stored under `userSettings`,
navigation returns to home, and nothing else changes. -/
theorem saveSettings_failure_keeps_success_applies (form : Settings) (st : AppState) :
    saveSettings true form st = (st, [Notice.settingsSaveError])
    ∧ (saveSettings false form st).1.currentSettings = form
    ∧ (saveSettings false form st).1.currentNav = Nav.home
    ∧ getStore (saveSettings false form st).1.storage "userSettings"
        = some (stringifySettings form)
    ∧ (saveSettings false form st).1.videos = st.videos
    ∧ (saveSettings false form st).1.favorites = st.favorites
    ∧ (saveSettings false form st).1.currentPlayingMovie = st.currentPlayingMovie
    ∧ (saveSettings false form st).2 = [Notice.settingsSaved] := by
  obtain ⟨l, t, n, e⟩ := form
  exact ⟨rfl, rfl, rfl, getStore_setStore_same st.storage "userSettings" _,
    rfl, rfl, rfl, rfl⟩

/-- A concrete stand-in for `JSON.parse` on settings payloads. -/
def parseSettingsStub : String → Except Unit SettingsPatch := fun _ => Except.error ()

/-- C4: after a successful load, `initializeApp` holds exactly the
id-assigned catalog (so every movie carries its synthesized
`"<category>-<index>"` id, unique catalog-wide), and in the statement
order of `initializeApp` the id-assignment step occurs exactly once,
after the data load and before any step that reads movie ids (settings
application re-rendering the view, and the initial home render). -/
theorem initializeApp_assigns_ids_once (parseS : String → Except Unit SettingsPatch)
    (parseF : String → Except Unit JsonVal) (raw : Catalog)
    (storedSettings storedFavorites : Option String) (storage : Store)
    (hkeys : (raw.map Prod.fst).Nodup) :
    (initializeApp parseS parseF raw storedSettings storedFavorites storage).videos
      = generateVideoIds raw
    ∧ (∀ cat ms,
        (cat, ms) ∈ (initializeApp parseS parseF raw storedSettings storedFavorites storage).videos →
        ∀ i, (h : i < ms.length) → (ms.get ⟨i, h⟩).id = cat ++ "-" ++ toString i)
    ∧ (catalogIds (initializeApp parseS parseF raw storedSettings storedFavorites storage).videos).Nodup
    ∧ initializeAppSteps.count InitStep.assignIds = 1
    ∧ initializeAppSteps.indexOf InitStep.loadData
        < initializeAppSteps.indexOf InitStep.assignIds
    ∧ initializeAppSteps.indexOf InitStep.assignIds
        < initializeAppSteps.indexOf InitStep.loadSettings
    ∧ initializeAppSteps.indexOf InitStep.assignIds
        < initializeAppSteps.indexOf InitStep.applySettings
    ∧ initializeAppSteps.indexOf InitStep.assignIds
        < initializeAppSteps.indexOf InitStep.renderHome :=
  ⟨rfl, gen_positions raw, catalogIds_gen_nodup raw hkeys,
    by decide, by decide, by decide, by decide, by decide⟩

/-- Witness for C4 at the example catalog with empty storage. -/
theorem initializeApp_assigns_ids_once_witness :
    (exampleCatalog.map Prod.fst).Nodup
    ∧ ((initializeApp parseSettingsStub parseFavoritesStub exampleCatalog none none []).videos
        = generateVideoIds exampleCatalog
      ∧ (∀ cat ms,
          (cat, ms) ∈ (initializeApp parseSettingsStub parseFavoritesStub exampleCatalog none none []).videos →
          ∀ i, (h : i < ms.length) → (ms.get ⟨i, h⟩).id = cat ++ "-" ++ toString i)
      ∧ (catalogIds (initializeApp parseSettingsStub parseFavoritesStub exampleCatalog none none []).videos).Nodup
      ∧ initializeAppSteps.count InitStep.assignIds = 1
      ∧ initializeAppSteps.indexOf InitStep.loadData
          < initializeAppSteps.indexOf InitStep.assignIds
      ∧ initializeAppSteps.indexOf InitStep.assignIds
          < initializeAppSteps.indexOf InitStep.loadSettings
      ∧ initializeAppSteps.indexOf InitStep.assignIds
          < initializeAppSteps.indexOf InitStep.applySettings
      ∧ initializeAppSteps.indexOf InitStep.assignIds
          < initializeAppSteps.indexOf InitStep.renderHome) :=
  ⟨by decide,
   initializeApp_assigns_ids_once parseSettingsStub parseFavoritesStub exampleCatalog
     none none [] (by decide)⟩
